import Mathlib

/-!
# Verification of the DAUBA directive-resolution and staged-write pipeline

Shallow embedding of the Python backend under `backend/`:

* `context_handler.py` — `[[context:...]]` parsing, safe path resolution,
  token-budgeted content injection;
* `include_handler.py` — the include resolver's safe path check;
* `suggest_handler.py` — `[[suggest:...]]` parsing, string-prefix path
  check, line-range extraction with a context window;
* `manifest_handler.py` — `[[manifest]]` substitution;
* `file_handler.py` — the pending-write store with confirm/reject;
* `main.py` — the `[[write:...]]` marker and fenced-code extraction, and
  the confirm endpoint's error heuristic.

Paths are modelled at the component level (a `List String` of path
components of an absolute path); Python's `os.path` functions on absolute
paths become pure functions on component lists.  File systems and external
tools (disk reads, git, the AST-based signal extractor) are parameters of
the embedding, as the spec treats them as external collaborators.
-/

/-! ## Basic character-list utilities (Python string primitives) -/

/-- Python `str.split(sep)` for a one-character separator, on character
lists: splitting `""` gives `[""]`, adjacent separators give empty
pieces. -/
def splitOnCharList (sep : Char) : List Char → List (List Char)
  | [] => [[]]
  | c :: rest =>
    let r := splitOnCharList sep rest
    if c = sep then [] :: r else (c :: r.headI) :: r.tail

/-- Python `str.startswith`. -/
def pyStartsWith (s pre : String) : Bool := pre.data.isPrefixOf s.data

/-- Python `s[:n]` for `n ≥ 0`. -/
def pyTake (s : String) (n : Nat) : String := String.mk (s.data.take n)

/-! ## Path model: `os.path` on absolute paths -/

/-- Components of a path string, split on `/`.  Empty components (from a
leading `/` or duplicated separators) are kept here and dropped by
normalization, exactly as `os.path.normpath` ignores them. -/
def splitPath (s : String) : List String :=
  (splitOnCharList '/' s.data).map String.mk

/-- One component step of `os.path.normpath` on an absolute path: `""` and
`"."` vanish, `".."` removes the last component (or vanishes at the root),
anything else is appended. -/
def normStep (stack : List String) (comp : String) : List String :=
  if comp = "" ∨ comp = "." then stack
  else if comp = ".." then stack.dropLast
  else stack ++ [comp]

/-- `os.path.normpath` of an absolute path, at the component level. -/
def normComps (comps : List String) : List String := comps.foldl normStep []

/-- `os.path.abspath` of an already-absolute path string.  All repository
roots in this code base are absolute, so `abspath` is pure normalization
(the working directory never enters). -/
def abspathComps (s : String) : List String := normComps (splitPath s)

/-- `os.path.abspath(os.path.join(base, rel))` for an absolute `base`
given as components: an absolute `rel` discards `base` (as `os.path.join`
does), otherwise the components are concatenated; then everything is
normalized. -/
def joinAbs (base : List String) (rel : String) : List String :=
  if pyStartsWith rel "/" then normComps (splitPath rel)
  else normComps (base ++ splitPath rel)

/-- `os.path.commonpath([a, b])` on two absolute paths: the longest common
leading run of components. -/
def commonComps : List String → List String → List String
  | a :: as, b :: bs => if a = b then a :: commonComps as bs else []
  | _, _ => []

/-- Render components back to an absolute path string, as
`os.path.abspath` returns it (used by the string-`startswith` check in
`suggest_handler._resolve_path_safe`). -/
def renderPath (comps : List String) : String :=
  "/" ++ String.intercalate "/" comps

/-! ## The three safe-path resolvers -/

/-- `context_handler.resolve_path_safe`: absolute form of root joined with
the relative path, confined by `os.path.commonpath` equality; raises
`ValueError` (here: `.error` with the f-string message) on escape. -/
def resolve_path_safe (basePath relPath : String) :
    Except String (List String) :=
  let baseAbs := abspathComps basePath
  let fullPath := joinAbs baseAbs relPath
  if commonComps baseAbs fullPath ≠ baseAbs then
    .error ("Path traversal detected for '" ++ relPath ++ "'")
  else .ok fullPath

/-- `include_handler._resolve_path_safe`: same commonpath check as the
context resolver, with a slightly different message. -/
def include_resolve_path_safe (basePath relPath : String) :
    Except String (List String) :=
  let baseAbs := abspathComps basePath
  let fullPath := joinAbs baseAbs relPath
  if commonComps baseAbs fullPath ≠ baseAbs then
    .error ("Path traversal detected: " ++ relPath)
  else .ok fullPath

/-- `suggest_handler._resolve_path_safe`: confinement by a *string*
`startswith` test on the rendered absolute paths, then an `os.path.isfile`
existence check against the abstract file system `fs` (mapping resolved
components to the file's lines). -/
def suggest_resolve_path_safe (fs : List String → Option (List String))
    (basePath relPath : String) : Except String (List String) :=
  let fullPath := joinAbs (abspathComps basePath) relPath
  if ¬ pyStartsWith (renderPath fullPath) (renderPath (abspathComps basePath)) then
    .error ("Path traversal detected for '" ++ relPath ++ "'")
  else if (fs fullPath).isNone then
    .error ("File does not exist at '" ++ relPath ++ "'")
  else .ok fullPath

/-! ## Python character / string helpers -/

/-- Python's default whitespace set (`\s`, `str.strip`, `str.split`). -/
def isPySpaceChar (c : Char) : Bool :=
  c = ' ' ∨ c = '\t' ∨ c = '\n' ∨ c = '\r' ∨ c = '\x0b' ∨ c = '\x0c'

/-- Python regex `\w`. -/
def isWordChar (c : Char) : Bool := c.isAlphanum ∨ c = '_'

/-- Python `str.strip()` on a character list. -/
def pyStrip (l : List Char) : List Char :=
  ((l.dropWhile isPySpaceChar).reverse.dropWhile isPySpaceChar).reverse

/-- Python `str.strip()`. -/
def pyStripS (s : String) : String := String.mk (pyStrip s.data)

/-- Python `str.lower()` (character-wise). -/
def pyLower (s : String) : String := String.mk (s.data.map Char.toLower)

/-- Python's substring test `pat in s` on character lists. -/
def listContainsSub (pat : List Char) : List Char → Bool
  | [] => pat.isEmpty
  | c :: rest => pat.isPrefixOf (c :: rest) || listContainsSub pat rest

/-- Python's substring test `pat in s` on strings. -/
def strContainsB (pat s : String) : Bool := listContainsSub pat.data s.data

/-- Split on a character class, Python-style (`re`-free core of
`str.split()` with no argument): pieces between class characters,
including empty ones. -/
def splitOnPredList (p : Char → Bool) : List Char → List (List Char)
  | [] => [[]]
  | c :: rest =>
    let r := splitOnPredList p rest
    if p c then [] :: r else (c :: r.headI) :: r.tail

/-- Python `str.replace(pat, repl)` (all non-overlapping occurrences, left
to right), fuelled by the input length. -/
def replaceAllF (pat repl : List Char) : Nat → List Char → List Char
  | 0, s => s
  | _ + 1, [] => []
  | fuel + 1, c :: rest =>
    if pat.isPrefixOf (c :: rest) then
      repl ++ replaceAllF pat repl fuel ((c :: rest).drop pat.length)
    else c :: replaceAllF pat repl fuel rest

/-- Python `str.replace(pat, repl)` on strings. -/
def pyReplace (s pat repl : String) : String :=
  String.mk (replaceAllF pat.data repl.data s.data.length s.data)

/-- `context_handler.estimate_token_count` /
`include_handler._estimate_token_count`: `len(text.split())`, the count of
maximal whitespace-delimited words. -/
def estimate_token_count (text : String) : Nat :=
  ((splitOnPredList isPySpaceChar text.data).filter (fun w => w ≠ [])).length

/-! ## `file_handler.py`: pending-write store, confirm and reject -/

/-- One entry of `pending_writes_storage` (the id key is held by the
store; the timestamp plays no role in any transition). -/
structure PendingOp where
  prompt : String
  path : String
  code : String
  repoBase : String
  deriving DecidableEq

/-- The pending-write table, a dictionary keyed by the opaque id. -/
def Store : Type := String → Option PendingOp

/-- `del pending_writes_storage[id]` / `.pop(id, None)`. -/
def storeErase (st : Store) (pendingId : String) : Store :=
  fun x => if x = pendingId then none else st x

/-- External outcomes that `confirm_write` depends on: whether the target
is a git repository, whether the git add/commit subprocesses succeed (and
the resulting hash or error text), and whether the disk write raises. -/
structure WriteEnv where
  gitRepo : Bool
  gitOk : Bool
  commitHash : String
  gitErr : String
  writeOk : Bool
  writeErr : String

/-- `file_handler.confirm_write`, sequentially: look up the entry; if
absent return the NotFound message; re-check path confinement (removing
the entry and failing on violation); otherwise attempt the disk write and
the optional git commit, remove the entry, and return the result message.
The third component lists the disk writes performed (resolved target
components with the written code). -/
def confirm_write (env : WriteEnv) (st : Store)
    (pendingId repoBasePath : String) :
    Store × String × List (List String × String) :=
  match st pendingId with
  | none => (st, "Error: Pending write not found.", [])
  | some op =>
    let absRepo := abspathComps repoBasePath
    let absFile := joinAbs absRepo op.path
    if commonComps absRepo absFile ≠ absRepo then
      (storeErase st pendingId, "Error: Cannot write outside of repository.", [])
    else if ¬ env.writeOk then
      (storeErase st pendingId, "Failed to write file: " ++ env.writeErr, [])
    else if ¬ env.gitRepo then
      (storeErase st pendingId,
        "Wrote to " ++ op.path ++ " (not a Git repo).", [(absFile, op.code)])
    else if env.gitOk then
      (storeErase st pendingId,
        "Wrote to " ++ op.path ++ " and created commit " ++ pyTake env.commitHash 7,
        [(absFile, op.code)])
    else
      (storeErase st pendingId,
        "Wrote to " ++ op.path ++ " \nWARNING: Git commit failed: " ++ env.gitErr,
        [(absFile, op.code)])

/-- `file_handler.reject_pending_write`: remove the entry if present; the
returned string is the `status` field of the result dictionary (the
`prompt` argument is only logged by the source). -/
def reject_pending_write (st : Store) (pendingId prompt : String) :
    Store × String :=
  match st pendingId with
  | none => (st, "rejection_failed")
  | some _ => (storeErase st pendingId, "write_rejected")

/-- `main.confirm_write_operation`'s failure heuristic: it raises
`HTTPException(500)` exactly when the lower-cased `write_result` message
contains `"error"` or `"failed"`. -/
def confirmEndpointRaises (msg : String) : Bool :=
  strContainsB "error" (pyLower msg) || strContainsB "failed" (pyLower msg)

/-! ## Interleaving model of two concurrent `confirm_write` calls

`confirm_write` holds `_storage_lock` for the initial lookup, releases it,
performs the path check, the disk write and the git work unlocked, and
re-acquires the lock only for the final `pop(pending_id, None)`.  Each
locked section is one atomic step; the unlocked write is its own step.
Both threads confirm the same pending id, whose entry is initially
present; the path check passes and the git commit succeeds (the
git-repository branch, whose removal is `pop` with a default). -/

/-- Program counter of one confirming thread: the locked lookup, the
unlocked disk write, the locked pop, or finished. -/
inductive CPc
  | checking
  | writing
  | popping
  | halted
  deriving DecidableEq

/-- Shared store (is the entry present?), number of disk writes performed,
both program counters, and each thread's result (`some true` = success
write-result, `some false` = the NotFound-style error). -/
structure CConf where
  present : Bool
  writes : Nat
  pc1 : CPc
  pc2 : CPc
  res1 : Option Bool
  res2 : Option Bool
  deriving DecidableEq

/-- One atomic step of the chosen thread (`false` = thread 1). -/
def confirmStep (c : CConf) (t : Bool) : CConf :=
  let pc := if t then c.pc2 else c.pc1
  match pc with
  | .checking =>
    if c.present then
      if t then { c with pc2 := .writing } else { c with pc1 := .writing }
    else
      if t then { c with pc2 := .halted, res2 := some false }
      else { c with pc1 := .halted, res1 := some false }
  | .writing =>
    if t then { c with writes := c.writes + 1, pc2 := .popping }
    else { c with writes := c.writes + 1, pc1 := .popping }
  | .popping =>
    if t then { c with present := false, pc2 := .halted, res2 := some true }
    else { c with present := false, pc1 := .halted, res1 := some true }
  | .halted => c

/-- Run a schedule (list of thread choices) from a configuration. -/
def confirmRun (c : CConf) (sched : List Bool) : CConf :=
  sched.foldl confirmStep c

/-- Initial configuration: the pending entry is present, nothing written,
both threads about to do the locked lookup. -/
def confirmInit : CConf :=
  { present := true, writes := 0, pc1 := .checking, pc2 := .checking,
    res1 := none, res2 := none }

/-! ## Bracket-directive scanner

Embedding of the regex `\[\[keyword:\s*(.+?)\s*\]\]` with `re.IGNORECASE`
(`context_handler.CONTEXT_DIRECTIVE_PATTERN`,
`suggest_handler.SUGGEST_DIRECTIVE_PATTERN`), its `findall` and its `sub`.
The lazy group is scanned directly: the payload is the shortest nonempty
newline-free run after which, past optional whitespace, the closing `]]`
follows.  (This realizes the regex for every payload that contains a
non-whitespace character, which all payloads built from paths do.) -/

/-- Case-insensitive prefix test (how `re.IGNORECASE` compares the literal
parts of the pattern against the input). -/
def startsWithCI : List Char → List Char → Bool
  | [], _ => true
  | _ :: _, [] => false
  | p :: ps, s :: ss => (p.toLower = s.toLower) && startsWithCI ps ss

/-- Scan the lazy payload `(.+?)\s*\]\]`: returns the captured payload and
the remainder after the closing `]]`. -/
def directivePayload : List Char → Option (List Char × List Char)
  | [] => none
  | c :: rest =>
    if c = '\n' then none
    else
      let afterWs := rest.dropWhile isPySpaceChar
      if ("]]".data).isPrefixOf afterWs then some ([c], afterWs.drop 2)
      else
        match directivePayload rest with
        | some (p, r) => some (c :: p, r)
        | none => none

/-- Try to match `[[kw:` (case-insensitively) at the head of `s`, then the
whitespace-trimmed lazy payload up to `]]`.  Returns the captured payload
and the remainder after the whole match. -/
def matchDirectiveAt (kw s : List Char) : Option (List Char × List Char) :=
  let opener := ("[[".data) ++ kw ++ (":".data)
  if startsWithCI opener s then
    directivePayload ((s.drop opener.length).dropWhile isPySpaceChar)
  else none

/-- `pattern.findall(s)`: all captured payloads, scanning left to right,
continuing after each match.  Fuelled by the input length (each step
consumes at least one character, so `s.length` fuel is always enough). -/
def directiveFindallF (kw : List Char) : Nat → List Char → List (List Char)
  | 0, _ => []
  | _ + 1, [] => []
  | fuel + 1, c :: rest =>
    match matchDirectiveAt kw (c :: rest) with
    | some (payload, after) => payload :: directiveFindallF kw fuel after
    | none => directiveFindallF kw fuel rest

/-- `pattern.findall(s)`. -/
def directiveFindall (kw s : List Char) : List (List Char) :=
  directiveFindallF kw s.length s

/-- `pattern.sub(repl, s)` (all occurrences), fuelled like `findall`. -/
def directiveSubAllF (kw repl : List Char) : Nat → List Char → List Char
  | 0, s => s
  | _ + 1, [] => []
  | fuel + 1, c :: rest =>
    match matchDirectiveAt kw (c :: rest) with
    | some (_, after) => repl ++ directiveSubAllF kw repl fuel after
    | none => c :: directiveSubAllF kw repl fuel rest

/-- `pattern.sub(repl, s)`. -/
def directiveSubAll (kw repl s : List Char) : List Char :=
  directiveSubAllF kw repl s.length s

/-- `pattern.sub(repl, s, count=1)`: only the first match is replaced. -/
def directiveSubFirst (kw repl : List Char) : List Char → List Char
  | [] => []
  | c :: rest =>
    match matchDirectiveAt kw (c :: rest) with
    | some (_, after) => repl ++ after
    | none => c :: directiveSubFirst kw repl rest

/-! ## `context_handler.py`: parsing and budgeted injection -/

/-- `context_handler.MAX_CONTEXT_TOKENS`. -/
def MAX_CONTEXT_TOKENS : Nat := 1000

/-- `context_handler.MAX_TOKENS_PER_FILE`. -/
def MAX_TOKENS_PER_FILE : Nat := 500

/-- `context_handler.parse_context_directive`: every `[[context:...]]`
payload contributes its comma-separated, stripped, nonempty pieces; the
cleaned prompt has all directive occurrences removed and is stripped. -/
def parse_context_directive (prompt : String) : List String × String :=
  let found := directiveFindall ("context".data) prompt.data
  if found.isEmpty then ([], pyStripS prompt)
  else
    (found.flatMap fun m =>
       (((splitOnCharList ',' m).map fun p => pyStripS (String.mk p)).filter
         fun p => p ≠ ""),
     pyStripS (String.mk (directiveSubAll ("context".data) [] prompt.data)))

/-- The per-file content selection of `inject_context`: files within the
per-file ceiling are taken verbatim, larger ones are clipped by
`extract_high_signal_blocks` (the AST-based signal extractor, passed in as
the abstract function `clip`).  Returns the content and the clipped flag. -/
def contextClip (clip : String → String) (raw : String) : String × Bool :=
  if estimate_token_count raw ≤ MAX_TOKENS_PER_FILE then (raw, false)
  else (clip raw, true)

/-- The header of one injected context block. -/
def ctxHeader (filePath : String) (clipped : Bool) : String :=
  let h := "--- START CONTEXT FROM: " ++ filePath ++ " ---\n"
  if clipped then
    h ++ "# NOTE: File was too large. Injected high-signal content only.\n"
  else h

/-- One injected context block. -/
def ctxBlock (filePath content : String) (clipped : Bool) : String :=
  ctxHeader filePath clipped ++ content ++
    "\n--- END CONTEXT FROM: " ++ filePath ++ " ---"

/-- The `for file_path in file_paths` loop of `inject_context`, carrying
the remaining token budget, the accumulated blocks and warnings, and — as
ghost instrumentation absent from the source — the list of estimated costs
of the blocks accepted so far (appended exactly when the source decrements
the budget, by the same amount). -/
def ctxLoop (fs : List String → Option String) (clip : String → String)
    (repoPath : String) :
    List String → Nat → List String → List String → List Nat →
    Nat × List String × List String × List Nat
  | [], budget, blocks, warns, acc => (budget, blocks, warns, acc)
  | p :: ps, budget, blocks, warns, acc =>
    match resolve_path_safe repoPath p with
    | .error w => ctxLoop fs clip repoPath ps budget blocks (warns ++ [w]) acc
    | .ok full =>
      match fs full with
      | none =>
        ctxLoop fs clip repoPath ps budget blocks
          (warns ++ ["File not found: " ++ p]) acc
      | some raw =>
        let cb := contextClip clip raw
        let tokens := estimate_token_count cb.1
        if budget < tokens then
          ctxLoop fs clip repoPath ps budget blocks
            (warns ++ ["Skipping " ++ p ++ ": not enough token budget (" ++
              toString budget ++ " left, needed " ++ toString tokens ++ ")"]) acc
        else
          ctxLoop fs clip repoPath ps (budget - tokens)
            (blocks ++ [ctxBlock p cb.1 cb.2])
            (warns ++ (if cb.2 then ["Clipped " ++ p ++ " to fit token budget"] else []))
            (acc ++ [tokens])

/-- `context_handler.inject_context`: parse the directives, run the loop
over the referenced paths with the full budget, and compose the final
prompt (the cleaned prompt alone when no block was injected). -/
def inject_context (prompt repoPath : String)
    (fs : List String → Option String) (clip : String → String)
    (maxTokens : Nat) : String × List String :=
  let pc := parse_context_directive prompt
  let r := ctxLoop fs clip repoPath pc.1 maxTokens [] [] []
  let blocks := r.2.1
  let warns := r.2.2.1
  if blocks.isEmpty then (pc.2, warns)
  else
    ("Based on the following file context, please answer the user's request.\n\n" ++
       String.intercalate "\n\n" blocks ++
       "\n\n--- USER REQUEST ---\n" ++ pc.2,
     warns)

/-! ## `suggest_handler.py`: line-range extraction with a context window -/

/-- Python `int(s)`: optional surrounding whitespace, optional sign, at
least one digit; `none` models the `ValueError` that `int` raises. -/
def pyInt (s : String) : Option Int :=
  let t := pyStrip s.data
  let core : Option (Bool × List Char) :=
    match t with
    | '-' :: ds => some (true, ds)
    | '+' :: ds => some (false, ds)
    | ds => some (false, ds)
  match core with
  | some (neg, ds) =>
    if ds.isEmpty ∨ ¬ ds.all Char.isDigit then none
    else
      let n : Nat := ds.foldl (fun a c => a * 10 + (c.toNat - 48)) 0
      some (if neg then -(n : Int) else (n : Int))
  | none => none

/-- Parsing of a suggest target `path:start-end`, including the range
validity check, mirroring the try-block of `inject_suggestions` (lines
70–84): the error value is the exception text that becomes both the
warning and the unavailable-block message. -/
def parseSuggestTarget (target : String) : Except String (String × Int × Int) :=
  let parts := (splitOnCharList ':' target.data).map String.mk
  if parts.length ≠ 2 then
    .error "Malformed directive. Expected format: 'path/to/file.py:start-end'."
  else
    let filePath := parts.headI
    let lineRange := parts.getLastI
    if ¬ strContainsB "-" lineRange then
      .error "Malformed line range. Expected format: 'start-end'."
    else
      let rangeParts := (splitOnCharList '-' lineRange.data).map String.mk
      if rangeParts.length ≠ 2 then
        .error "too many values to unpack (expected 2)"
      else
        match pyInt rangeParts.headI, pyInt rangeParts.getLastI with
        | some startLine, some endLine =>
          if startLine > endLine ∨ startLine < 1 then
            .error "Invalid line range."
          else .ok (filePath, startLine, endLine)
        | _, _ =>
          .error "invalid literal for int() with base 10"

/-- `suggest_handler._extract_context_window`: widen the 1-based inclusive
range by `window` lines on each side, clamped to the file; returns the
joined slice and the actual 1-based bounds. -/
def extract_context_window (lines : List String) (start stop window : Int) :
    String × Int × Int :=
  let startIdx := max 0 (start - 1)
  let endIdx := min (lines.length : Int) stop
  let ctxStartIdx := max 0 (startIdx - window)
  let ctxEndIdx := min (lines.length : Int) (endIdx + window)
  (String.join ((lines.drop ctxStartIdx.toNat).take (ctxEndIdx - ctxStartIdx).toNat),
   ctxStartIdx + 1, ctxEndIdx)

/-- The error block `# SUGGEST CONTEXT UNAVAILABLE: ...`. -/
def suggestUnavailable (msg : String) : String :=
  "# SUGGEST CONTEXT UNAVAILABLE: " ++ msg

/-- The successful injected block of `inject_suggestions`, reporting the
actually-returned bounds alongside the requested selection. -/
def suggestBlock (filePath : String) (actualStart actualEnd start stop : Int)
    (codeBlock : String) : String :=
  "--- START SUGGEST CONTEXT ---\n" ++
  "File: " ++ filePath ++ "\n" ++
  "Lines: " ++ toString actualStart ++ "-" ++ toString actualEnd ++
  " (selection was " ++ toString start ++ "-" ++ toString stop ++ ")\n" ++
  "```\n" ++ pyStripS codeBlock ++ "\n```\n" ++
  "--- END SUGGEST CONTEXT ---"

/-- The try-block of `inject_suggestions` for one target string: parse it,
resolve the path (string-prefix check plus existence), read the file's
lines from `fs`, extract the windowed slice, and build the block; every
caught exception becomes an unavailable block plus one warning. -/
def processSuggestTarget (fs : List String → Option (List String))
    (repoPath target : String) : String × List String :=
  match parseSuggestTarget target with
  | .error e => (suggestUnavailable e, [e])
  | .ok (filePath, startLine, endLine) =>
    match suggest_resolve_path_safe fs repoPath filePath with
    | .error e => (suggestUnavailable e, [e])
    | .ok full =>
      match fs full with
      | none =>
        (suggestUnavailable ("File does not exist at '" ++ filePath ++ "'"),
         ["File does not exist at '" ++ filePath ++ "'"])
      | some lines =>
        let r := extract_context_window lines startLine endLine 10
        (suggestBlock filePath r.2.1 r.2.2 startLine endLine r.1, [])

/-- `suggest_handler.inject_suggestions`: only the first directive found is
processed; its occurrence is replaced (`count=1`) by a placeholder that is
then substituted with the built block or the error block; later directive
occurrences stay in the prompt as literal text. -/
def inject_suggestions (prompt repoPath : String)
    (fs : List String → Option (List String)) : String × List String :=
  let found := directiveFindall ("suggest".data) prompt.data
  match found with
  | [] => (prompt, [])
  | t :: _ =>
    let cleanPrompt :=
      pyStripS (String.mk
        (directiveSubFirst ("suggest".data) ("{SUGGEST_BLOCK}".data) prompt.data))
    let pr := processSuggestTarget fs repoPath (String.mk t)
    (pyReplace cleanPrompt "{SUGGEST_BLOCK}" pr.1, pr.2)

/-! ## `manifest_handler.py`: `[[manifest]]` substitution -/

/-- The placeholder spliced in when no manifest is loaded. -/
def manifestUnavailableNote : String :=
  "# Manifest Context: Not Available (file not found or empty)"

/-- `manifest_handler.inject_manifest`.  The `manifest` parameter is the
YAML rendering `yaml.dump(...)` of the loaded manifest when
`get_manifest()` is truthy, `none` when the manifest is missing or empty
(YAML loading and dumping are external collaborators).  The directive test
is the source's case-sensitive `"[[manifest]]" in prompt`. -/
def inject_manifest (manifest : Option String) (prompt : String) :
    String × List String :=
  if ¬ strContainsB "[[manifest]]" prompt then (prompt, [])
  else
    match manifest with
    | none =>
      (pyReplace prompt "[[manifest]]" manifestUnavailableNote,
       ["Manifest directive used, but manifest could not be loaded or is missing."])
    | some yamlText =>
      (pyReplace prompt "[[manifest]]"
         ("--- START MANIFEST CONTEXT ---\n" ++ yamlText ++
          "--- END MANIFEST CONTEXT ---"),
       [])

/-! ## `main.py`: the `[[write:path]]` marker and fenced-code extraction -/

/-- Lazy scan of `(.+?)\]\]`: the shortest nonempty newline-free payload
followed by `]]`; returns the payload and the remainder after `]]`. -/
def lazyUntil (close : List Char) : List Char → Option (List Char × List Char)
  | [] => none
  | c :: rest =>
    if c = '\n' then none
    else if close.isPrefixOf rest then some ([c], rest.drop close.length)
    else
      match lazyUntil close rest with
      | some (p, r) => some (c :: p, r)
      | none => none

/-- Lazy scan of `([\s\S]*?)` up to the closing token: the shortest
(possibly empty) run after which `close` follows. -/
def lazyUntil0 (close : List Char) : List Char → Option (List Char)
  | [] => none
  | c :: rest =>
    if close.isPrefixOf (c :: rest) then some []
    else (lazyUntil0 close rest).map (c :: ·)

/-- `re.search` as a leftmost scan: try the position matcher `f` at every
start offset, leftmost success wins. -/
def scanFirst {α : Type} (f : List Char → Option α) : List Char → Option α
  | [] => f []
  | c :: rest =>
    match f (c :: rest) with
    | some a => some a
    | none => scanFirst f rest

/-- Match `main.FILE_WRITE_MARKER_PATTERN` =
`\[\[write:(.+?)\]\]\s*\n?([\s\S]*)` at the head of `s`: the marker
literal, the lazy path payload, then the rest.  The `\s*\n?` between the
groups only consumes whitespace, which the caller's `.strip()` on group 2
removes anyway, so the remainder is returned un-trimmed here. -/
def matchWriteAt (s : List Char) : Option (List Char × List Char) :=
  if ("[[write:".data).isPrefixOf s then
    lazyUntil ("]]".data) (s.drop 8)
  else none

/-- The marker extraction of `main.ask_llm` (lines 108–111): search the
reply for the write pattern; on a match return the stripped path and the
stripped trailing text. -/
def extract_write (content : String) : Option (String × String) :=
  (scanFirst matchWriteAt content.data).map fun pr =>
    (pyStripS (String.mk pr.1), pyStripS (String.mk pr.2))

/-- Match the fence pattern ```` ```(?:\w+)?\n([\s\S]*?)\n``` ```` at the
head of `s`: the opening fence, an optional language word, a newline, then
the lazily captured body up to the closing fence. -/
def matchFenceAt (s : List Char) : Option (List Char) :=
  if ("```".data).isPrefixOf s then
    match (s.drop 3).dropWhile isWordChar with
    | '\n' :: body => lazyUntil0 ("\n```".data) body
    | _ => none
  else none

/-- The fenced-block search of `main.ask_llm` (line 113). -/
def find_code_fence (s : String) : Option String :=
  (scanFirst matchFenceAt s.data).map fun b => pyStripS (String.mk b)

/-- Lines 108–114 of `main.ask_llm`: from a model reply, the staged path
and code — the fenced block's stripped content when one is present in the
trailing text, the raw (stripped) trailing text otherwise. -/
def stage_write_payload (content : String) : Option (String × String) :=
  (extract_write content).map fun pr =>
    (pr.1,
     match find_code_fence pr.2 with
     | some code => code
     | none => pr.2)

/-! ## Budget-accounting predicate

The spec's acceptance discipline for context blocks (§3 Token budget, §8
Budget monotonicity), stated over the ghost list of accepted costs: each
cost fits in the budget remaining when it is considered. -/

/-- `budgetOK b cs`: consuming the costs `cs` in order never overdraws a
budget of `b`. -/
def budgetOK : Nat → List Nat → Prop
  | _, [] => True
  | b, c :: cs => c ≤ b ∧ budgetOK (b - c) cs

/-! # Helper lemmas -/

/-- `os.path.commonpath([a, b]) == a` says exactly that `a`'s components
are a leading run of `b`'s: the commonpath confinement test accepts
precisely the descendants of the root. -/
theorem commonComps_eq_left_iff (a b : List String) :
    commonComps a b = a ↔ a <+: b := by
  induction a generalizing b with
  | nil =>
    cases b <;> simp [commonComps]
  | cons x as ih =>
    cases b with
    | nil =>
      simp [commonComps]
    | cons y bs =>
      by_cases h : x = y
      · subst h
        simp [commonComps, ih, List.cons_prefix_cons]
      · simp [commonComps, h, List.cons_prefix_cons]

/-- An infix occurrence makes the Python substring test succeed. -/
theorem listContainsSub_of_isInfix {pat s : List Char} (h : pat <:+: s) :
    listContainsSub pat s = true := by
  induction s with
  | nil =>
    have : pat = [] := List.eq_nil_of_infix_nil h
    simp [listContainsSub, this]
  | cons c rest ih =>
    rw [List.infix_cons_iff] at h
    cases h with
    | inl hp =>
      simp [listContainsSub, List.isPrefixOf_iff_prefix.mpr hp]
    | inr hi =>
      simp [listContainsSub, ih hi]

/-- `re.search` skips start offsets where the position matcher fails. -/
theorem scanFirst_append {α : Type} (f : List Char → Option α) :
    ∀ (a b : List Char), (∀ i < a.length, f ((a ++ b).drop i) = none) →
      scanFirst f (a ++ b) = scanFirst f b := by
  intro a
  induction a with
  | nil => intro b _; rfl
  | cons c a' ih =>
    intro b h
    have h0 : f (c :: (a' ++ b)) = none := by
      have := h 0 (by simp)
      simpa using this
    have hrec : ∀ i < a'.length, f ((a' ++ b).drop i) = none := by
      intro i hi
      have := h (i + 1) (by simp; omega)
      simpa using this
    have hstep : scanFirst f (c :: (a' ++ b)) = scanFirst f (a' ++ b) := by
      simp [scanFirst, h0]
    rw [List.cons_append, hstep]
    exact ih b hrec

/-- `re.search` finds nothing when the position matcher fails at every
start offset. -/
theorem scanFirst_eq_none {α : Type} (f : List Char → Option α) :
    ∀ (s : List Char), (∀ i, f (s.drop i) = none) → scanFirst f s = none := by
  intro s
  induction s with
  | nil => intro h; simpa using h 0
  | cons c rest ih =>
    intro h
    have h0 : f (c :: rest) = none := by simpa using h 0
    simp only [scanFirst, h0]
    exact ih fun i => by simpa using h (i + 1)

/-- The lazy scan `(.+?)close` captures exactly `p` from
`p ++ (close ++ t)` when `p` is nonempty and newline-free and `close`
occurs nowhere earlier than at the end of `p`. -/
theorem lazyUntil_spec (close : List Char) :
    ∀ (p t : List Char), p ≠ [] → (∀ c ∈ p, c ≠ '\n') →
      (∀ i, 1 ≤ i → i < p.length →
        ¬ close.isPrefixOf ((p ++ (close ++ t)).drop i)) →
      lazyUntil close (p ++ (close ++ t)) = some (p, t) := by
  intro p
  induction p with
  | nil => intro t hne; exact absurd rfl hne
  | cons c p' ih =>
    intro t _ hnl hmin
    have hc : c ≠ '\n' := hnl c (by simp)
    cases p' with
    | nil =>
      have hpre : close.isPrefixOf (close ++ t) = true :=
        List.isPrefixOf_iff_prefix.mpr (List.prefix_append close t)
      simp [lazyUntil, hc, hpre, List.drop_left]
    | cons d p'' =>
      have hnotpre : close.isPrefixOf (d :: (p'' ++ (close ++ t))) = false := by
        have h1 : ¬ close <+: d :: (p'' ++ (close ++ t)) := by
          simpa using hmin 1 (by omega) (by simp)
        rw [← Bool.not_eq_true]
        simpa [List.isPrefixOf_iff_prefix] using h1
      have hrec :
          lazyUntil close (d :: (p'' ++ (close ++ t))) = some (d :: p'', t) := by
        have := ih t (by simp) (fun x hx => hnl x (by simp [hx])) ?_
        · simpa using this
        · intro i h1 h2
          have := hmin (i + 1) (by omega) (by simp at h2 ⊢; omega)
          simpa using this
      have hgoal :
          lazyUntil close (c :: d :: (p'' ++ (close ++ t))) =
            some (c :: d :: p'', t) := by
        generalize hq : d :: (p'' ++ (close ++ t)) = q at hnotpre hrec
        simp [lazyUntil, hc, hnotpre, hrec]
      simpa using hgoal

/-- The lazy scan `([\s\S]*?)close` captures exactly `b` from
`b ++ (close ++ z)` when `close` is nonempty and occurs nowhere inside
`b`. -/
theorem lazyUntil0_spec (close : List Char) (hcne : close ≠ []) :
    ∀ (b z : List Char),
      (∀ i < b.length, ¬ close.isPrefixOf ((b ++ (close ++ z)).drop i)) →
      lazyUntil0 close (b ++ (close ++ z)) = some b := by
  intro b
  induction b with
  | nil =>
    intro z _
    cases close with
    | nil => exact absurd rfl hcne
    | cons e es =>
      have hpre : (e :: es).isPrefixOf ((e :: es) ++ z) = true :=
        List.isPrefixOf_iff_prefix.mpr (List.prefix_append (e :: es) z)
      simp only [List.cons_append] at hpre
      simp [lazyUntil0, hpre]
  | cons c b' ih =>
    intro z hmin
    have h0 : close.isPrefixOf (c :: (b' ++ (close ++ z))) = false := by
      have h1 : ¬ close <+: c :: (b' ++ (close ++ z)) := by
        simpa using hmin 0 (by simp)
      rw [← Bool.not_eq_true]
      simpa [List.isPrefixOf_iff_prefix] using h1
    have hrec : lazyUntil0 close (b' ++ (close ++ z)) = some b' := by
      apply ih
      intro i hi
      have := hmin (i + 1) (by simp; omega)
      simpa using this
    have hgoal :
        lazyUntil0 close (c :: (b' ++ (close ++ z))) = some (c :: b') := by
      generalize hq : b' ++ (close ++ z) = q at h0 hrec
      simp [lazyUntil0, h0, hrec]
    simpa using hgoal

/-- A run of word characters before a newline is exactly what
`(?:\w+)?\n` consumes. -/
theorem dropWhile_word_append (w r : List Char)
    (hw : ∀ c ∈ w, isWordChar c = true) :
    (w ++ '\n' :: r).dropWhile isWordChar = '\n' :: r := by
  induction w with
  | nil =>
    have hnw : isWordChar '\n' = false := by decide
    simp [List.dropWhile_cons, hnw]
  | cons c w' ih =>
    have hc : isWordChar c = true := hw c (by simp)
    simp only [List.cons_append, List.dropWhile_cons, hc, if_pos]
    exact ih fun x hx => hw x (by simp [hx])

/-- The accounting invariant of `inject_context`'s loop: the final budget
is the initial budget minus the accepted costs, the accepted costs are
appended to the ghost accumulator, each accepted cost fit the budget
remaining when it was considered, and the accepted total never exceeds the
initial budget. -/
theorem ctxLoop_budget (fs : List String → Option String)
    (clip : String → String) (repo : String) :
    ∀ (ps : List String) (budget : Nat) (blocks warns : List String)
      (acc : List Nat),
      ∃ tail blocks2 warns2,
        ctxLoop fs clip repo ps budget blocks warns acc =
          (budget - tail.sum, blocks2, warns2, acc ++ tail) ∧
        budgetOK budget tail ∧ tail.sum ≤ budget := by
  intro ps
  induction ps with
  | nil =>
    intro budget blocks warns acc
    exact ⟨[], blocks, warns, by simp [ctxLoop], trivial, by simp⟩
  | cons p ps' ih =>
    intro budget blocks warns acc
    rcases hres : resolve_path_safe repo p with w | full
    · obtain ⟨tail, b2, w2, heq, hok, hle⟩ := ih budget blocks (warns ++ [w]) acc
      exact ⟨tail, b2, w2, by simp only [ctxLoop, hres, heq], hok, hle⟩
    · rcases hfs : fs full with _ | raw
      · obtain ⟨tail, b2, w2, heq, hok, hle⟩ :=
          ih budget blocks (warns ++ ["File not found: " ++ p]) acc
        exact ⟨tail, b2, w2, by simp only [ctxLoop, hres, hfs, heq], hok, hle⟩
      · set cb := contextClip clip raw with hcb
        set tokens := estimate_token_count cb.1 with htok
        by_cases hbt : budget < tokens
        · obtain ⟨tail, b2, w2, heq, hok, hle⟩ :=
            ih budget blocks
              (warns ++ ["Skipping " ++ p ++ ": not enough token budget (" ++
                toString budget ++ " left, needed " ++ toString tokens ++ ")"]) acc
          refine ⟨tail, b2, w2, ?_, hok, hle⟩
          simp only [ctxLoop, hres, hfs, ← hcb, ← htok, if_pos hbt, heq]
        · obtain ⟨tail, b2, w2, heq, hok, hle⟩ :=
            ih (budget - tokens) (blocks ++ [ctxBlock p cb.1 cb.2])
              (warns ++ (if cb.2 then ["Clipped " ++ p ++ " to fit token budget"] else []))
              (acc ++ [tokens])
          refine ⟨tokens :: tail, b2, w2, ?_, ⟨by omega, hok⟩, by
            simp only [List.sum_cons]; omega⟩
          simp only [ctxLoop, hres, hfs, ← hcb, ← htok, if_neg hbt, heq]
          simp [List.sum_cons, Nat.sub_sub, List.append_assoc]

/-- Succeeding at the current offset makes `re.search` succeed. -/
theorem scanFirst_of_some {α : Type} (f : List Char → Option α)
    (s : List Char) (v : α) (h : f s = some v) : scanFirst f s = some v := by
  cases s <;> simp [scanFirst, h]

/-! # Claim theorems -/

/-- C1: the spec claims that two concurrent `confirm` calls on the same
pending identifier let exactly one return a success write-result, the
other a NotFound-style failure, with the target file written exactly once.
The code violates this: `confirm_write` holds the lock only for the
initial lookup and for the final `pop(pending_id, None)`, so under the
interleaving check₁, check₂, write₁, pop₁, write₂, pop₂ both calls pass
the existence check, both write the file, and both report success — two
successes and two disk writes, never a NotFound result. -/
theorem C1_confirm_race_both_succeed :
    (confirmRun confirmInit [false, true, false, false, true, true]).res1 = some true ∧
    (confirmRun confirmInit [false, true, false, false, true, true]).res2 = some true ∧
    (confirmRun confirmInit [false, true, false, false, true, true]).writes = 2 := by
  decide

/-- C2: safe path resolution fails with the path-traversal error exactly
when the normalized resolution of root-plus-relative-path is not a
descendant of the normalized root (escaping `../` chains land there), and
succeeds with that descendant otherwise; concretely, `inject_context` on
`"[[context: ../../../etc/passwd]] hi"` returns the cleaned prompt `"hi"`
with exactly one path-traversal warning and no content block. -/
theorem C2_path_confinement :
    (∀ (root rel : String),
      (¬ abspathComps root <+: joinAbs (abspathComps root) rel →
        resolve_path_safe root rel =
          .error ("Path traversal detected for '" ++ rel ++ "'")) ∧
      (abspathComps root <+: joinAbs (abspathComps root) rel →
        resolve_path_safe root rel = .ok (joinAbs (abspathComps root) rel))) ∧
    inject_context "[[context: ../../../etc/passwd]] hi" "/home/user/repo"
        (fun _ => none) id 1000
      = ("hi", ["Path traversal detected for '../../../etc/passwd'"]) := by
  constructor
  · intro root rel
    constructor
    · intro h
      have hne : commonComps (abspathComps root) (joinAbs (abspathComps root) rel)
          ≠ abspathComps root := fun hc => h ((commonComps_eq_left_iff _ _).mp hc)
      simp [resolve_path_safe, hne]
    · intro h
      have heq : commonComps (abspathComps root) (joinAbs (abspathComps root) rel)
          = abspathComps root := (commonComps_eq_left_iff _ _).mpr h
      simp [resolve_path_safe, heq]
  · decide

/-- Witness for C2 at concrete inputs: `../../etc/shadow` escapes
`/srv/repo` and is rejected; `docs/../src/main.py` stays inside and
resolves to a descendant. -/
theorem C2_witness :
    resolve_path_safe "/srv/repo" "../../etc/shadow"
      = .error "Path traversal detected for '../../etc/shadow'" ∧
    resolve_path_safe "/srv/repo" "docs/../src/main.py"
      = .ok (joinAbs (abspathComps "/srv/repo") "docs/../src/main.py") := by
  refine ⟨(C2_path_confinement.1 "/srv/repo" "../../etc/shadow").1 (by decide),
          (C2_path_confinement.1 "/srv/repo" "docs/../src/main.py").2 (by decide)⟩

/-- C3 counterexample: the claim says all three resolvers (context,
include, suggest) reject a resolution landing in a sibling directory that
shares a string prefix with the root.  With root `/a/b` the relative path
`../bc` resolves to the sibling `/a/bc` — not a descendant of the root —
yet `suggest_handler._resolve_path_safe`, which tests
`full_path.startswith(abspath(base_path))`, accepts it. -/
theorem C3_counterexample :
    suggest_resolve_path_safe
        (fun q => if q = ["a", "bc"] then some ["x\n"] else none) "/a/b" "../bc"
      = .ok ["a", "bc"] ∧
    ¬ abspathComps "/a/b" <+: joinAbs (abspathComps "/a/b") "../bc" := by
  exact ⟨rfl, by decide⟩

/-- C3 amended: the context and include resolvers decide confinement by
longest-common-path equality and reject every non-descendant (sibling
prefix included); the suggest resolver uses a string-prefix test and
accepts the sibling-prefix escape `/a/b` ↦ `/a/bc`. -/
theorem C3_amended_resolvers :
    (∀ (root rel : String),
      ¬ abspathComps root <+: joinAbs (abspathComps root) rel →
        resolve_path_safe root rel =
          .error ("Path traversal detected for '" ++ rel ++ "'") ∧
        include_resolve_path_safe root rel =
          .error ("Path traversal detected: " ++ rel)) ∧
    (∀ (fs : List String → Option (List String)) (lines : List String),
      fs ["a", "bc"] = some lines →
      suggest_resolve_path_safe fs "/a/b" "../bc" = .ok ["a", "bc"]) := by
  constructor
  · intro root rel h
    have hne : commonComps (abspathComps root) (joinAbs (abspathComps root) rel)
        ≠ abspathComps root := fun hc => h ((commonComps_eq_left_iff _ _).mp hc)
    exact ⟨by simp [resolve_path_safe, hne], by simp [include_resolve_path_safe, hne]⟩
  · intro fs lines hfs
    have hfull : joinAbs (abspathComps "/a/b") "../bc" = ["a", "bc"] := by decide
    have hsw : pyStartsWith (renderPath ["a", "bc"])
        (renderPath (abspathComps "/a/b")) = true := by decide
    simp [suggest_resolve_path_safe, hfull, hfs, hsw]

/-- Witness for C3's amended statement at concrete inputs. -/
theorem C3_amended_witness :
    include_resolve_path_safe "/a/b" "../bc"
      = .error "Path traversal detected: ../bc" ∧
    suggest_resolve_path_safe (fun q => if q = ["a", "bc"] then some [] else none)
        "/a/b" "../bc" = .ok ["a", "bc"] := by
  refine ⟨(C3_amended_resolvers.1 "/a/b" "../bc" (by decide)).2,
          C3_amended_resolvers.2 (fun q => if q = ["a", "bc"] then some [] else none)
            [] (by decide)⟩

/-- C4: in `inject_context`'s loop over the parsed context paths, the
final budget is the initial budget minus the sum of the accepted blocks'
estimated costs (so accepted blocks decrement by exactly their cost and
rejected ones leave the budget unchanged), each accepted cost fits the
budget remaining when it is considered (`budgetOK`), and the accepted
total never exceeds the initial budget; moreover a block whose cost
exceeds the remaining budget is skipped with the budget untouched and the
"not enough token budget" warning appended. -/
theorem C4_budget_accounting :
    (∀ (fs : List String → Option String) (clip : String → String)
       (repo : String) (ps : List String) (budget : Nat),
      ∃ costs blocks warns,
        ctxLoop fs clip repo ps budget [] [] [] =
          (budget - costs.sum, blocks, warns, costs) ∧
        budgetOK budget costs ∧ costs.sum ≤ budget) ∧
    (∀ (fs : List String → Option String) (clip : String → String)
       (repo p : String) (budget : Nat) (blocks warns : List String)
       (acc : List Nat) (full : List String) (raw : String),
      resolve_path_safe repo p = .ok full → fs full = some raw →
      budget < estimate_token_count (contextClip clip raw).1 →
      ctxLoop fs clip repo [p] budget blocks warns acc =
        (budget, blocks,
         warns ++ ["Skipping " ++ p ++ ": not enough token budget (" ++
           toString budget ++ " left, needed " ++
           toString (estimate_token_count (contextClip clip raw).1) ++ ")"],
         acc)) := by
  constructor
  · intro fs clip repo ps budget
    obtain ⟨tail, b2, w2, heq, hok, hle⟩ :=
      ctxLoop_budget fs clip repo ps budget [] [] []
    exact ⟨tail, b2, w2, by simpa using heq, hok, hle⟩
  · intro fs clip repo p budget blocks warns acc full raw hres hfs hbt
    simp only [ctxLoop, hres, hfs, if_pos hbt]

/-- Witness for C4 at a concrete input: a 3-word file against a budget of
1 token is skipped with the budget unchanged and the warning recorded. -/
theorem C4_witness :
    ctxLoop (fun _ => some "a b c") id "/r" ["f.py"] 1 [] [] [] =
      (1, [],
       ["Skipping f.py: not enough token budget (1 left, needed 3)"], []) := by
  have h := C4_budget_accounting.2 (fun _ => some "a b c") id "/r" "f.py" 1 [] [] []
      ["r", "f.py"] "a b c" rfl rfl (by decide)
  exact h.trans (by decide)

/-- C10 counterexample: `inject_manifest` tests the case-sensitive
substring `"[[manifest]]"`, so the upper-case marker `[[MANIFEST]]` —
which the claim says triggers substitution — is left verbatim in the
prompt with no warning and no substitution at all. -/
theorem C10_counterexample :
    inject_manifest none "[[MANIFEST]]" = ("[[MANIFEST]]", []) ∧
    strContainsB "[[MANIFEST]]" (inject_manifest none "[[MANIFEST]]").1 = true := by
  exact ⟨by decide, by decide⟩

/-- C10 amended: manifest directive recognition is case-sensitive; for
every prompt containing the exact marker `[[manifest]]`, `inject_manifest`
substitutes every occurrence — with the formatted snapshot block when a
manifest is loaded, or the explicit not-available placeholder (plus one
warning) otherwise — and prompts without the exact marker are returned
unchanged. -/
theorem C10_amended_case_sensitive (prompt y : String)
    (h : strContainsB "[[manifest]]" prompt = true) :
    inject_manifest none prompt =
      (pyReplace prompt "[[manifest]]" manifestUnavailableNote,
       ["Manifest directive used, but manifest could not be loaded or is missing."]) ∧
    inject_manifest (some y) prompt =
      (pyReplace prompt "[[manifest]]"
         ("--- START MANIFEST CONTEXT ---\n" ++ y ++ "--- END MANIFEST CONTEXT ---"),
       []) ∧
    (∀ q : String, strContainsB "[[manifest]]" q = false →
      inject_manifest none q = (q, [])) := by
  refine ⟨by simp [inject_manifest, h], by simp [inject_manifest, h], ?_⟩
  intro q hq
  simp [inject_manifest, hq]

/-- Witness for C10's amended statement at a concrete prompt. -/
theorem C10_amended_witness :
    inject_manifest none "x [[manifest]] y" =
      ("x # Manifest Context: Not Available (file not found or empty) y",
       ["Manifest directive used, but manifest could not be loaded or is missing."]) := by
  have h := (C10_amended_case_sensitive "x [[manifest]] y" "" (by decide)).1
  exact h.trans (by decide)

/-- C5: sequential terminal-transition exclusivity.  After a confirm that
found the entry, passed the path re-check and wrote the file, the entry is
gone: a second confirm returns the NotFound message without touching the
store, and a reject reports `rejection_failed`.  Symmetrically, after a
successful reject the entry is gone and a subsequent confirm returns the
NotFound message while a second reject fails. -/
theorem C5_terminal_exclusivity (env env2 : WriteEnv) (st : Store)
    (pid repo prm : String) (op : PendingOp)
    (hlook : st pid = some op)
    (hpath : commonComps (abspathComps repo) (joinAbs (abspathComps repo) op.path)
               = abspathComps repo)
    (hwrite : env.writeOk = true) :
    ((confirm_write env st pid repo).1 pid = none ∧
     confirm_write env2 (confirm_write env st pid repo).1 pid repo =
       ((confirm_write env st pid repo).1, "Error: Pending write not found.", []) ∧
     reject_pending_write (confirm_write env st pid repo).1 pid prm =
       ((confirm_write env st pid repo).1, "rejection_failed")) ∧
    (reject_pending_write st pid prm = (storeErase st pid, "write_rejected") ∧
     (storeErase st pid) pid = none ∧
     confirm_write env (storeErase st pid) pid repo =
       (storeErase st pid, "Error: Pending write not found.", []) ∧
     reject_pending_write (storeErase st pid) pid prm =
       (storeErase st pid, "rejection_failed")) := by
  have herase : (storeErase st pid) pid = none := by simp [storeErase]
  have hstore : (confirm_write env st pid repo).1 = storeErase st pid := by
    by_cases hg : env.gitRepo <;> by_cases hgo : env.gitOk <;>
      simp [confirm_write, hlook, hpath, hwrite, hg, hgo]
  constructor
  · refine ⟨by rw [hstore]; exact herase, ?_, ?_⟩
    · rw [hstore]
      simp [confirm_write, herase]
    · rw [hstore]
      simp [reject_pending_write, herase]
  · exact ⟨by simp [reject_pending_write, hlook],
      herase,
      by simp [confirm_write, herase],
      by simp [reject_pending_write, herase]⟩

/-- Witness for C5 at a concrete store with one pending entry. -/
theorem C5_witness :
    (confirm_write ⟨true, true, "abcdef012345", "", true, ""⟩
        (fun x => if x = "id-1"
           then some ⟨"make it", "src/app.py", "print(1)\n", "/repo"⟩ else none)
        "id-1" "/repo").1 "id-1" = none ∧
    reject_pending_write
        (fun x => if x = "id-1"
           then some ⟨"make it", "src/app.py", "print(1)\n", "/repo"⟩ else none)
        "id-1" "make it"
      = (storeErase
           (fun x => if x = "id-1"
              then some ⟨"make it", "src/app.py", "print(1)\n", "/repo"⟩ else none)
           "id-1", "write_rejected") := by
  have h := C5_terminal_exclusivity ⟨true, true, "abcdef012345", "", true, ""⟩
      ⟨true, true, "abcdef012345", "", true, ""⟩
      (fun x => if x = "id-1"
         then some ⟨"make it", "src/app.py", "print(1)\n", "/repo"⟩ else none)
      "id-1" "/repo" "make it" ⟨"make it", "src/app.py", "print(1)\n", "/repo"⟩
      rfl (by decide) rfl
  exact ⟨h.1.1, h.2.1⟩

/-- C9: when confirm finds the entry, the path re-check passes, the disk
write succeeds and the repository is git-managed but the commit fails,
`confirm_write` itself is non-fatal as the spec claims — the entry is
removed, the file is written exactly once, and the result message still
begins `"Wrote to ..."`, carrying the commit failure only as an embedded
warning.  But the `/confirm_write` endpoint classifies any message whose
lower-case form contains `"failed"` as an error, and this message does, so
`confirm_write_operation` raises HTTP 500: at the API surface the commit
failure is not surfaced "only as a logged warning", contradicting the
claim and the source's own stated intent. -/
theorem C9_commit_failure_raises (env : WriteEnv) (st : Store)
    (pid repo : String) (op : PendingOp)
    (hlook : st pid = some op)
    (hpath : commonComps (abspathComps repo) (joinAbs (abspathComps repo) op.path)
               = abspathComps repo)
    (hw : env.writeOk = true) (hg : env.gitRepo = true) (hfail : env.gitOk = false) :
    confirm_write env st pid repo =
      (storeErase st pid,
       "Wrote to " ++ op.path ++ " \nWARNING: Git commit failed: " ++ env.gitErr,
       [(joinAbs (abspathComps repo) op.path, op.code)]) ∧
    confirmEndpointRaises
        ("Wrote to " ++ op.path ++ " \nWARNING: Git commit failed: " ++ env.gitErr)
      = true := by
  constructor
  · simp [confirm_write, hlook, hpath, hw, hg, hfail]
  · have l1 : ("Wrote to ".data).map Char.toLower = "wrote to ".data := by decide
    have l2 : (" \nWARNING: Git commit failed: ".data).map Char.toLower
        = " \nwarning: git commit ".data ++ ("failed".data ++ ": ".data) := by decide
    have hmsg :
        (("Wrote to " ++ op.path ++ " \nWARNING: Git commit failed: " ++
            env.gitErr).data).map Char.toLower
          = ("wrote to ".data ++ (op.path.data).map Char.toLower ++
              " \nwarning: git commit ".data) ++ "failed".data ++
             (": ".data ++ (env.gitErr.data).map Char.toLower) := by
      simp [String.data_append, List.map_append, l1, l2]
    have hinf : ("failed".data) <:+:
        (("Wrote to " ++ op.path ++ " \nWARNING: Git commit failed: " ++
            env.gitErr).data).map Char.toLower :=
      ⟨"wrote to ".data ++ (op.path.data).map Char.toLower ++
         " \nwarning: git commit ".data,
       ": ".data ++ (env.gitErr.data).map Char.toLower, hmsg.symm⟩
    have hsub : strContainsB "failed"
        (pyLower ("Wrote to " ++ op.path ++ " \nWARNING: Git commit failed: " ++
          env.gitErr)) = true := by
      unfold strContainsB pyLower
      exact listContainsSub_of_isInfix hinf
    unfold confirmEndpointRaises
    rw [hsub]
    simp

/-- Witness for C9 at a concrete store and a failing git commit. -/
theorem C9_witness :
    confirm_write ⟨true, false, "", "Git command failed: boom", true, ""⟩
        (fun x => if x = "id-9"
           then some ⟨"p", "src/a.py", "code\n", "/repo"⟩ else none)
        "id-9" "/repo"
      = (storeErase
           (fun x => if x = "id-9"
              then some ⟨"p", "src/a.py", "code\n", "/repo"⟩ else none) "id-9",
         "Wrote to src/a.py \nWARNING: Git commit failed: Git command failed: boom",
         [(["repo", "src", "a.py"], "code\n")]) ∧
    confirmEndpointRaises
        "Wrote to src/a.py \nWARNING: Git commit failed: Git command failed: boom"
      = true := by
  have h := C9_commit_failure_raises
      ⟨true, false, "", "Git command failed: boom", true, ""⟩
      (fun x => if x = "id-9"
         then some ⟨"p", "src/a.py", "code\n", "/repo"⟩ else none)
      "id-9" "/repo" ⟨"p", "src/a.py", "code\n", "/repo"⟩
      rfl (by decide) rfl rfl rfl
  refine ⟨h.1.trans ?_, h.2⟩
  congr 1

/-- C6: for a valid suggest target `path:start-end` on a readable file,
the extracted window's actual bounds are `start-10` and `end+10` clamped
to `[1, file length]`, the returned text is exactly the 1-based line range
between those bounds, and the injected block both equals the source's
template at those bounds and contains the `Lines: a-b (selection was
s-e)` line reporting the returned and the requested bounds together. -/
theorem C6_suggest_window (fs : List String → Option (List String))
    (repo t fp : String) (s e : Int) (lines full : List String)
    (hparse : parseSuggestTarget t = .ok (fp, s, e))
    (hs : 1 ≤ s) (hse : s ≤ e)
    (hres : suggest_resolve_path_safe fs repo fp = .ok full)
    (hread : fs full = some lines) :
    (extract_context_window lines s e 10).2.1 = max 1 (s - 10) ∧
    (extract_context_window lines s e 10).2.2 = min (lines.length : Int) (e + 10) ∧
    (extract_context_window lines s e 10).1 =
      String.join ((lines.take (min (lines.length : Int) (e + 10)).toNat).drop
        ((max 1 (s - 10)).toNat - 1)) ∧
    processSuggestTarget fs repo t =
      (suggestBlock fp (max 1 (s - 10)) (min (lines.length : Int) (e + 10)) s e
         (extract_context_window lines s e 10).1, []) ∧
    strContainsB
        ("Lines: " ++ toString (max 1 (s - 10)) ++ "-" ++
          toString (min (lines.length : Int) (e + 10)) ++ " (selection was " ++
          toString s ++ "-" ++ toString e ++ ")")
        (suggestBlock fp (max 1 (s - 10)) (min (lines.length : Int) (e + 10)) s e
          (extract_context_window lines s e 10).1) = true := by
  have hL : (0 : Int) ≤ (lines.length : Int) := Int.natCast_nonneg _
  have h1 : (extract_context_window lines s e 10).2.1 = max 1 (s - 10) := by
    simp only [extract_context_window]
    omega
  have h2 : (extract_context_window lines s e 10).2.2
      = min (lines.length : Int) (e + 10) := by
    simp only [extract_context_window]
    omega
  have h3 : (extract_context_window lines s e 10).1 =
      String.join ((lines.take (min (lines.length : Int) (e + 10)).toNat).drop
        ((max 1 (s - 10)).toNat - 1)) := by
    simp only [extract_context_window]
    rw [List.drop_take]
    have e1 : ((max 1 (s - 10)).toNat - 1)
        = (max 0 (max 0 (s - 1) - 10)).toNat := by omega
    have e2 : (min (lines.length : Int) (e + 10)).toNat -
          (max 0 (max 0 (s - 1) - 10)).toNat
        = ((min (lines.length : Int) (min (lines.length : Int) e + 10)) -
            (max 0 (max 0 (s - 1) - 10))).toNat := by omega
    rw [e1, e2]
  refine ⟨h1, h2, h3, ?_, ?_⟩
  · simp only [processSuggestTarget, hparse, hres, hread]
    rw [h1, h2]
  · apply listContainsSub_of_isInfix
    refine ⟨("--- START SUGGEST CONTEXT ---\n" ++ "File: " ++ fp ++ "\n").data,
            ("\n" ++ "```\n" ++
              pyStripS (extract_context_window lines s e 10).1 ++
              "\n```\n" ++ "--- END SUGGEST CONTEXT ---").data, ?_⟩
    unfold suggestBlock
    simp only [String.data_append, List.append_assoc, List.cons_append,
      List.singleton_append, List.nil_append]

/-- Witness for C6: the spec's own example — selection 10–20 on a 40-line
file yields lines 1–30. -/
theorem C6_witness :
    (extract_context_window (List.replicate 40 "line\n") 10 20 10).2.1 = 1 ∧
    (extract_context_window (List.replicate 40 "line\n") 10 20 10).2.2 = 30 ∧
    processSuggestTarget
        (fun q => if q = ["repo", "app.py"] then some (List.replicate 40 "line\n") else none)
        "/repo" "app.py:10-20"
      = (suggestBlock "app.py" 1 30 10 20
           (extract_context_window (List.replicate 40 "line\n") 10 20 10).1, []) := by
  have h := C6_suggest_window
      (fun q => if q = ["repo", "app.py"] then some (List.replicate 40 "line\n") else none)
      "/repo" "app.py:10-20" "app.py" 10 20 (List.replicate 40 "line\n")
      ["repo", "app.py"] rfl (by decide) (by decide) rfl rfl
  refine ⟨h.1.trans (by decide), h.2.1.trans (by decide), h.2.2.2.1.trans ?_⟩
  congr 2

/-- C7 counterexample: the claim says an invalid-range suggest directive
is skipped with a warning "while other suggest directives present in the
same prompt are still processed".  In a prompt whose first directive has
the invalid range `5-3` and whose second directive `a.py:1-2` is valid on
an existing 3-line file, `inject_suggestions` only replaces the first
directive (with the error block) and leaves the second one verbatim in the
output, processing nothing for it — the source handles only the first
match (`count=1`). -/
theorem C7_counterexample :
    inject_suggestions "[[suggest: a.py:5-3]] and [[suggest: a.py:1-2]] go" "/r"
        (fun _ => some ["l1\n", "l2\n", "l3\n"])
      = ("# SUGGEST CONTEXT UNAVAILABLE: Invalid line range. and [[suggest: a.py:1-2]] go",
         ["Invalid line range."]) ∧
    strContainsB "[[suggest: a.py:1-2]]"
        (inject_suggestions "[[suggest: a.py:5-3]] and [[suggest: a.py:1-2]] go" "/r"
          (fun _ => some ["l1\n", "l2\n", "l3\n"])).1 = true := by
  exact ⟨by decide, by decide⟩

/-- C7 amended: only the first suggest directive of a prompt is handled;
when its target fails parsing or range validation (in particular a range
with start < 1 or end < start yields the "Invalid line range." error), the
error text is the single warning and the error block is substituted for
the first directive occurrence, while any later directives stay in the
prompt as literal, unprocessed text.  Well-formed ranges beyond the file's
length are clamped silently by the extraction, not warned about. -/
theorem C7_amended_first_only (prompt repo : String)
    (fs : List String → Option (List String)) (t : List Char)
    (ts : List (List Char)) (msg : String)
    (hfind : directiveFindall ("suggest".data) prompt.data = t :: ts)
    (hparse : parseSuggestTarget (String.mk t) = .error msg) :
    inject_suggestions prompt repo fs =
      (pyReplace
         (pyStripS (String.mk
           (directiveSubFirst ("suggest".data) ("{SUGGEST_BLOCK}".data) prompt.data)))
         "{SUGGEST_BLOCK}" (suggestUnavailable msg),
       [msg]) := by
  simp [inject_suggestions, hfind, processSuggestTarget, hparse]

/-- Witness for C7's amended statement: a start line of 0 is rejected with
the invalid-range warning and the error block. -/
theorem C7_amended_witness :
    inject_suggestions "[[suggest: b.py:0-4]] x" "/r" (fun _ => none)
      = ("# SUGGEST CONTEXT UNAVAILABLE: Invalid line range. x",
         ["Invalid line range."]) := by
  have h := C7_amended_first_only "[[suggest: b.py:0-4]] x" "/r" (fun _ => none)
      ("b.py:0-4".data) [] "Invalid line range." (by decide) rfl
  exact h.trans (by decide)

/-- The write-marker position matcher at the marker itself: captures the
path payload `p` and the trailing text `t`. -/
theorem matchWriteAt_marker (p t : List Char) (hp : p ≠ [])
    (hnl : ∀ c ∈ p, c ≠ '\n')
    (hmin : ∀ i, 1 ≤ i → i < p.length →
      ¬ ("]]".data).isPrefixOf ((p ++ ("]]".data ++ t)).drop i)) :
    matchWriteAt ("[[write:".data ++ (p ++ ("]]".data ++ t))) = some (p, t) := by
  unfold matchWriteAt
  rw [if_pos (List.isPrefixOf_iff_prefix.mpr (List.prefix_append _ _))]
  have hdrop : ("[[write:".data ++ (p ++ ("]]".data ++ t))).drop 8
      = p ++ ("]]".data ++ t) := by
    have h8 : ("[[write:".data).length = 8 := by decide
    rw [← h8, List.drop_left]
  rw [hdrop]
  exact lazyUntil_spec _ p t hp hnl hmin

/-- The fence position matcher at a well-formed fence: captures the fenced
body `b`. -/
theorem matchFenceAt_fence (w b z : List Char)
    (hw : ∀ c ∈ w, isWordChar c = true)
    (hb : ∀ i < b.length,
      ¬ ("\n```".data).isPrefixOf ((b ++ ("\n```".data ++ z)).drop i)) :
    matchFenceAt ("```".data ++ (w ++ '\n' :: (b ++ ("\n```".data ++ z))))
      = some b := by
  unfold matchFenceAt
  rw [if_pos (List.isPrefixOf_iff_prefix.mpr (List.prefix_append _ _))]
  have hdrop : ("```".data ++ (w ++ '\n' :: (b ++ ("\n```".data ++ z)))).drop 3
      = w ++ '\n' :: (b ++ ("\n```".data ++ z)) := by
    have h3 : ("```".data).length = 3 := by decide
    rw [← h3, List.drop_left]
  rw [hdrop, dropWhile_word_append _ _ hw]
  show lazyUntil0 ("\n```".data) (b ++ ("\n```".data ++ z)) = some b
  exact lazyUntil0_spec _ (by decide) b z hb

/-- C8: in a model reply consisting of anything without a write marker,
then `[[write:` p `]]` and trailing text `t`, the extracted staged path is
the stripped payload and: when the stripped trailing text contains a
triple-backtick fenced block, the staged code is the fenced body
(stripped) — fenced content takes precedence; when it contains no fence at
all, the staged code is the stripped raw trailing text. -/
theorem C8_fenced_precedence (a p t : List Char)
    (hskip : ∀ i < a.length,
      ¬ ("[[write:".data).isPrefixOf
          ((a ++ ("[[write:".data ++ (p ++ ("]]".data ++ t)))).drop i))
    (hp : p ≠ []) (hnl : ∀ c ∈ p, c ≠ '\n')
    (hmin : ∀ i, 1 ≤ i → i < p.length →
      ¬ ("]]".data).isPrefixOf ((p ++ ("]]".data ++ t)).drop i)) :
    extract_write (String.mk (a ++ ("[[write:".data ++ (p ++ ("]]".data ++ t)))))
      = some (pyStripS (String.mk p), pyStripS (String.mk t)) ∧
    (∀ x w b z,
      pyStrip t = x ++ ("```".data ++ (w ++ '\n' :: (b ++ ("\n```".data ++ z)))) →
      (∀ i < x.length, ¬ ("```".data).isPrefixOf ((pyStrip t).drop i)) →
      (∀ c ∈ w, isWordChar c = true) →
      (∀ i < b.length,
        ¬ ("\n```".data).isPrefixOf ((b ++ ("\n```".data ++ z)).drop i)) →
      stage_write_payload
          (String.mk (a ++ ("[[write:".data ++ (p ++ ("]]".data ++ t)))))
        = some (pyStripS (String.mk p), pyStripS (String.mk b))) ∧
    ((∀ i, ¬ ("```".data).isPrefixOf ((pyStrip t).drop i)) →
      stage_write_payload
          (String.mk (a ++ ("[[write:".data ++ (p ++ ("]]".data ++ t)))))
        = some (pyStripS (String.mk p), pyStripS (String.mk t))) := by
  have hm := matchWriteAt_marker p t hp hnl hmin
  have hskip' : ∀ i < a.length,
      matchWriteAt
        ((a ++ ("[[write:".data ++ (p ++ ("]]".data ++ t)))).drop i) = none := by
    intro i hi
    unfold matchWriteAt
    rw [if_neg (hskip i hi)]
  have hscan : scanFirst matchWriteAt
      (a ++ ("[[write:".data ++ (p ++ ("]]".data ++ t)))) = some (p, t) := by
    rw [scanFirst_append matchWriteAt a _ hskip']
    exact scanFirst_of_some _ _ _ hm
  have hdata : (String.mk (a ++ ("[[write:".data ++ (p ++ ("]]".data ++ t))))).data
      = a ++ ("[[write:".data ++ (p ++ ("]]".data ++ t))) := rfl
  have hex : extract_write
      (String.mk (a ++ ("[[write:".data ++ (p ++ ("]]".data ++ t)))))
        = some (pyStripS (String.mk p), pyStripS (String.mk t)) := by
    unfold extract_write
    rw [hdata, hscan]
    rfl
  have hstripdata : (pyStripS (String.mk t)).data = pyStrip t := rfl
  refine ⟨hex, ?_, ?_⟩
  · intro x w b z hdec hx hw hb
    have hfence := matchFenceAt_fence w b z hw hb
    have hx' : ∀ i < x.length,
        matchFenceAt
          ((x ++ ("```".data ++ (w ++ '\n' :: (b ++ ("\n```".data ++ z))))).drop i)
            = none := by
      intro i hi
      have h := hx i hi
      rw [hdec] at h
      unfold matchFenceAt
      rw [if_neg h]
    have hscanf : scanFirst matchFenceAt (pyStrip t) = some b := by
      rw [hdec, scanFirst_append matchFenceAt x _ hx']
      exact scanFirst_of_some _ _ _ hfence
    have hfcf : find_code_fence (pyStripS (String.mk t))
        = some (pyStripS (String.mk b)) := by
      unfold find_code_fence
      rw [hstripdata, hscanf]
      rfl
    unfold stage_write_payload
    rw [hex]
    simp only [Option.map_some']
    rw [hfcf]
  · intro hno
    have hnone : scanFirst matchFenceAt (pyStrip t) = none := by
      apply scanFirst_eq_none
      intro i
      unfold matchFenceAt
      rw [if_neg (hno i)]
    have hfcf : find_code_fence (pyStripS (String.mk t)) = none := by
      unfold find_code_fence
      rw [hstripdata, hnone]
      rfl
    unfold stage_write_payload
    rw [hex]
    simp only [Option.map_some']
    rw [hfcf]

/-- Witness for C8: a reply with a fenced block stages the fenced content
(not the raw trailing text). -/
theorem C8_witness :
    stage_write_payload "Sure.\n[[write:src/app.py]]\n```python\nprint(1)\n```"
      = some ("src/app.py", "print(1)") := by
  have h := (C8_fenced_precedence ("Sure.\n".data) ("src/app.py".data)
      ("\n```python\nprint(1)\n```".data)
      (by decide) (by decide) (by decide) (by decide)).2.1
      [] ("python".data) ("print(1)".data) []
      (by decide) (by decide) (by decide) (by decide)
  have heq : "Sure.\n[[write:src/app.py]]\n```python\nprint(1)\n```"
      = String.mk ("Sure.\n".data ++ ("[[write:".data ++
          ("src/app.py".data ++ ("]]".data ++ ("\n```python\nprint(1)\n```".data))))) := by
    decide
  rw [heq]
  exact h.trans (by decide)
